import Mathlib

/-!
Verification of the gpzuparse extraction engine (src/parser.py) against its
natural-language specification.  Text is modelled as `List Char`; Python
`None`/`NaN` table cells as `Option (List Char)`; code that can raise maps
into `Except PyErr`.  Every definition is a shallow embedding of the Python
function named in its doc comment.
-/

namespace Gpzu

/-- Python exception kinds that the embedded code can raise. -/
inductive PyErr
  | keyError
  | typeError
  | indexError
  | valueError
  | unboundLocal
deriving DecidableEq, Repr

/-- Python `s.startswith(p)`: `p` is an initial segment of `s`
(arguments: pattern, then text). -/
def isStartOf : List Char → List Char → Bool
  | [], _ => true
  | _ :: _, [] => false
  | p :: ps, t :: ts => p == t && isStartOf ps ts

/-- Python `s.endswith(p)`. -/
def isEndOf (p t : List Char) : Bool :=
  isStartOf p.reverse t.reverse

/-- Python `p in s` for strings: `p` occurs as a contiguous substring of `s`. -/
def containsSub (p : List Char) : List Char → Bool
  | [] => isStartOf p []
  | c :: ts => isStartOf p (c :: ts) || containsSub p ts

/-- Index of the last occurrence of `sep` in the text, if any
(used to embed Python `str.rsplit(sep, 1)`). -/
def lastOcc (sep : List Char) : List Char → Option Nat
  | [] => if isStartOf sep [] then some 0 else none
  | c :: ts =>
    match lastOcc sep ts with
    | some i => some (i + 1)
    | none => if isStartOf sep (c :: ts) then some 0 else none

/-- Python `s.rsplit(sep, maxsplit=1)`: split at the last occurrence of `sep`;
a string with no occurrence yields the one-element list `[s]`. -/
def rsplitOnce (sep s : List Char) : List (List Char) :=
  match lastOcc sep s with
  | none => [s]
  | some i => [s.take i, s.drop (i + sep.length)]

/-- Python `s.strip()`: drop leading and trailing whitespace. -/
def pyStrip (s : List Char) : List Char :=
  ((s.dropWhile Char.isWhitespace).reverse.dropWhile Char.isWhitespace).reverse

/-- Maximal runs of decimal digits, accumulator form; `acc` is the current
run, reversed (`[]` when not inside a run). -/
def digitRunsAux (acc : List Char) : List Char → List (List Char)
  | [] => if acc = [] then [] else [acc.reverse]
  | c :: ts =>
    if c.isDigit then digitRunsAux (c :: acc) ts
    else if acc = [] then digitRunsAux [] ts
    else acc.reverse :: digitRunsAux [] ts

/-- Python `re.findall(r"\d+", s)`: the maximal digit runs of `s`, in order. -/
def digitRuns (s : List Char) : List (List Char) :=
  digitRunsAux [] s

/-- Numeric value of a digit string. -/
def natOfDigits (s : List Char) : Nat :=
  s.foldl (fun a c => a * 10 + (c.toNat - 48)) 0

/-- Python `int(s)` restricted to the digit strings the parser feeds it:
`some` exactly on nonempty all-digit strings (else `int` raises `ValueError`,
which `_postprocess_area` catches and turns into `None`). -/
def pyIntOfDigits (s : List Char) : Option Nat :=
  if s ≠ [] ∧ s.all Char.isDigit then some (natOfDigits s) else none

/-- Embedding of `Parser._postprocess_area` (src/parser.py lines 746-767) for a
string argument: unit is hectares when the substring "га" occurs; the first
maximal digit run is converted with `int` and hectares are multiplied by
10000; no digit run yields `None`. -/
def postprocessArea (area : List Char) : Option Nat :=
  match digitRuns area with
  | [] => none
  | m :: _ =>
    match pyIntOfDigits m with
    | none => none
    | some n => some (if containsSub ("га".data) area then n * 10000 else n)

theorem digitRunsAux_sound (ts : List Char) :
    ∀ (acc : List Char), acc.all Char.isDigit = true →
      ∀ m ∈ digitRunsAux acc ts, m ≠ [] ∧ m.all Char.isDigit = true := by
  induction ts with
  | nil =>
    intro acc hacc m hm
    by_cases h : acc = []
    · simp [digitRunsAux, h] at hm
    · simp [digitRunsAux, h] at hm
      subst hm
      constructor
      · simpa using h
      · simpa using hacc
  | cons c ts ih =>
    intro acc hacc m hm
    by_cases hc : c.isDigit
    · rw [digitRunsAux, if_pos hc] at hm
      exact ih (c :: acc) (by simp [hc, hacc]) m hm
    · rw [digitRunsAux, if_neg hc] at hm
      by_cases h : acc = []
      · rw [if_pos h] at hm
        exact ih [] rfl m hm
      · rw [if_neg h] at hm
        rcases List.mem_cons.mp hm with h1 | h2
        · subst h1
          constructor
          · simpa using h
          · simpa using hacc
        · exact ih [] rfl m h2

theorem digitRuns_sound (s : List Char) :
    ∀ m ∈ digitRuns s, m ≠ [] ∧ m.all Char.isDigit = true :=
  digitRunsAux_sound s [] rfl

/-- C1 counterexample: on input "1.5 га" the code's leading digit run is "1",
so the normalizer returns 10000, not the 15000 the claim asserts. -/
theorem c1_counterexample :
    postprocessArea ("1.5 га".data) = some 10000 ∧
      postprocessArea ("1.5 га".data) ≠ some 15000 := by
  constructor
  · rfl
  · decide

/-- C1 (amended): the normalizer takes the leading maximal digit run of the
raw area string, multiplies it by 10000 when the hectare abbreviation "га" is
present, and leaves it unchanged otherwise; when the string has no digit run
the result is null.  In particular "1.5 га" yields 10000 (not 15000, since
only the integer part before the dot is read) and "500" yields 500. -/
theorem c1_area_amended :
    (∀ s m ms, digitRuns s = m :: ms →
        postprocessArea s =
          some (if containsSub ("га".data) s then natOfDigits m * 10000
                else natOfDigits m)) ∧
    (∀ s, digitRuns s = [] → postprocessArea s = none) ∧
    postprocessArea ("1.5 га".data) = some 10000 ∧
    postprocessArea ("500".data) = some 500 := by
  refine ⟨?_, ?_, rfl, rfl⟩
  · intro s m ms h
    have hm : m ≠ [] ∧ m.all Char.isDigit = true :=
      digitRuns_sound s m (by rw [h]; exact List.mem_cons_self m ms)
    have hpy : pyIntOfDigits m = some (natOfDigits m) := by
      unfold pyIntOfDigits
      rw [if_pos ⟨hm.1, hm.2⟩]
    simp only [postprocessArea, h, hpy]
  · intro s h
    simp only [postprocessArea, h]

/-- C1 witness: the amended theorem applied at the concrete input "500". -/
theorem c1_witness :
    postprocessArea ("500".data) =
      some (if containsSub ("га".data) ("500".data) then
              natOfDigits ("500".data) * 10000
            else natOfDigits ("500".data)) :=
  c1_area_amended.1 ("500".data) ("500".data) [] (by decide)

/-! ### Development percent (C10)

`_extract_data_by_subzones`, src/parser.py lines 425-430:
the column-6 text of a subzone group is rsplit at the last " - "; the code
then tests `if len(parts):` and reads `parts[1]`, with an `else` branch that
would yield "-". -/

/-- Outcome of the development-percent computation: the dead default branch,
a value, or the `IndexError` raised by `parts[1]`. -/
inductive DevRes
  | dash
  | val (v : List Char)
  | indexErr
deriving DecidableEq, Repr

/-- Embedding of the development-percent block of
`Parser._extract_data_by_subzones` (src/parser.py lines 425-430). -/
def devPercent (col6 : List Char) : DevRes :=
  let parts := rsplitOnce (" - ".data) col6
  if parts.length ≠ 0 then
    match parts.get? 1 with
    | some p => .val (pyStrip p)
    | none => .indexErr
  else .dash

theorem lastOcc_eq_none_of_not_contains (sep : List Char) (s : List Char)
    (h : containsSub sep s = false) : lastOcc sep s = none := by
  induction s with
  | nil =>
    unfold containsSub at h
    unfold lastOcc
    rw [if_neg (by simp [h])]
  | cons c ts ih =>
    unfold containsSub at h
    rcases Bool.or_eq_false_iff.mp h with ⟨h1, h2⟩
    unfold lastOcc
    rw [ih h2, if_neg (by simp [h1])]

theorem rsplitOnce_length_pos (sep s : List Char) :
    1 ≤ (rsplitOnce sep s).length := by
  unfold rsplitOnce
  cases lastOcc sep s <;> simp

/-- C10: for every concatenated column-6 text, `str.rsplit(" - ", 1)` returns
a non-empty list, so the default branch yielding "-" is unreachable; when the
text contains no " - " separator the code raises `IndexError` at `parts[1]`
instead of producing a default value. -/
theorem c10_theorem (col6 : List Char) :
    1 ≤ (rsplitOnce (" - ".data) col6).length ∧
    devPercent col6 ≠ .dash ∧
    (containsSub (" - ".data) col6 = false → devPercent col6 = .indexErr) := by
  refine ⟨rsplitOnce_length_pos _ _, ?_, ?_⟩
  · unfold devPercent rsplitOnce
    cases h : lastOcc (" - ".data) col6 <;> simp
  · intro h
    unfold devPercent rsplitOnce
    rw [lastOcc_eq_none_of_not_contains _ _ h]
    simp

/-- C10 witness: on the concrete separator-free text "abc" the extraction
raises `IndexError`. -/
theorem c10_witness : devPercent ("abc".data) = .indexErr :=
  (c10_theorem ("abc".data)).2.2 (by decide)

/-! ### Use kinds (C2)

`Parser._postprocess_usekinds`, src/parser.py lines 719-744. -/

/-- Characters allowed inside a parenthesized use-kind code:
the regex class `[0123456789.]`. -/
def isCodeChar (c : Char) : Bool :=
  c.isDigit || c == '.'

/-- Scanner for `re.findall(r"\([0123456789.]+\)", s)`, returning the inner
code of each match (Python applies `match[1:-1]`).  State: `none` when
outside a candidate match, `some acc` when inside parentheses with the code
characters read so far, reversed.  On a failed candidate the scanner resumes
exactly where the regex engine would (the skipped characters are code
characters, which can never start a match). -/
def parenCodesAux : Option (List Char) → List Char → List (List Char)
  | _, [] => []
  | none, c :: ts =>
    if c == '(' then parenCodesAux (some []) ts else parenCodesAux none ts
  | some acc, c :: ts =>
    if isCodeChar c then parenCodesAux (some (c :: acc)) ts
    else if c == ')' then
      if acc = [] then parenCodesAux none ts
      else acc.reverse :: parenCodesAux none ts
    else if c == '(' then parenCodesAux (some []) ts
    else parenCodesAux none ts

/-- The parenthesized numeric codes of a use-kinds string, in order. -/
def parenCodes (s : List Char) : List (List Char) :=
  parenCodesAux none s

/-- Python `re.match(r"2[\d.]+", code) or code == "13.2"`: a code counts as
residential when it starts with '2' followed by at least one digit or dot,
or equals "13.2". -/
def pyLivingCode (c : List Char) : Bool :=
  (match c with
   | '2' :: d :: _ => isCodeChar d
   | _ => false) || c == ("13.2".data)

/-- The partition-based group computation from the `else` branch of
`_postprocess_usekinds` (lines 729-740): Python builds `set`s, but only the
emptiness of each side matters, which list filtering preserves. -/
def partitionGroup (codes : List (List Char)) : List Char :=
  let living := codes.filter pyLivingCode
  let nonliving := codes.filter (fun c => !(pyLivingCode c))
  if living ≠ [] ∧ nonliving ≠ [] then "Смешанная".data
  else if living = [] ∧ nonliving ≠ [] then "Нежилая".data
  else if living ≠ [] ∧ nonliving = [] then "Жилая".data
  else "-".data

/-- Join a list of strings with the separator "; ". -/
def joinWith (sep : List Char) : List (List Char) → List Char
  | [] => []
  | [x] => x
  | x :: xs => x ++ sep ++ joinWith sep xs

/-- Embedding of `Parser._postprocess_usekinds` (src/parser.py lines 719-744)
for a string argument.  The Python guard is
`len(usekind_codes) == 0 and "не распространяется" in usekinds or
"не устанавливается" in usekinds`, which by operator precedence is
`(len == 0 and A) or B`. -/
def postprocessUsekinds (usekinds : List Char) : List Char × List Char :=
  let codes := parenCodes usekinds
  if (codes = [] ∧ containsSub ("не распространяется".data) usekinds) ∨
      containsSub ("не устанавливается".data) usekinds then
    ("Нежилая".data, pyStrip usekinds)
  else
    (partitionGroup codes, joinWith ("; ".data) codes)

/-- C2: the claim fails on the code.  The input "(2.1) не устанавливается"
contains one parenthesized residential code, yet the code takes the verbatim
branch and returns group "Нежилая" with the verbatim text as detail, because
`len(...) == 0 and "не распространяется" in s or "не устанавливается" in s`
parses as `(len == 0 and A) or B`.  The partition of its codes would give
"Жилая". -/
theorem c2_theorem :
    postprocessUsekinds ("(2.1) не устанавливается".data) =
      ("Нежилая".data, "(2.1) не устанавливается".data) ∧
    parenCodes ("(2.1) не устанавливается".data) = ["2.1".data] ∧
    pyLivingCode ("2.1".data) = true ∧
    partitionGroup ["2.1".data] = "Жилая".data := by
  refine ⟨?_, rfl, rfl, rfl⟩
  rfl

/-! ### Rightsholder type (C3)

`Parser._detect_rightsholder_type`, src/parser.py lines 640-664. -/

/-- Python `str.lower()` restricted to the ASCII and Cyrillic letters the
parser's inputs use: A-Z, А-Я and Ё map to their lowercase forms, everything
else is unchanged. -/
def charLower (c : Char) : Char :=
  if 'A' ≤ c ∧ c ≤ 'Z' then Char.ofNat (c.toNat + 32)
  else if 'А' ≤ c ∧ c ≤ 'Я' then Char.ofNat (c.toNat + 32)
  else if c = 'Ё' then 'ё'
  else c

/-- Python `s.lower()` on a string. -/
def lowerStr (s : List Char) : List Char :=
  s.map charLower

/-- Python `s.split(sep)` for a one-character separator: splits at every
occurrence and keeps empty pieces, so the result is never empty. -/
def splitOnChar (sep : Char) : List Char → List (List Char)
  | [] => [[]]
  | c :: ts =>
    if c == sep then [] :: splitOnChar sep ts
    else
      match splitOnChar sep ts with
      | [] => [[c]]
      | h :: r => (c :: h) :: r

/-- Python `s.split(" ")`. -/
def splitSp (s : List Char) : List (List Char) :=
  splitOnChar ' ' s

/-- The organization keyword list of `_detect_rightsholder_type`
(src/parser.py line 644). -/
def orgKeywords : List (List Char) :=
  ["обществ".data, "товариществ".data, "акционер".data, "партнерст".data,
   "предприят".data, "некоммерческ".data, "департамент".data,
   "управление".data, "отдел".data]

/-- Embedding of `Parser._detect_rightsholder_type` (src/parser.py lines
640-664) for a string argument.  The final branch returns "ФЛ или ИП"
exactly when the token count is below 4 and the `for`/`else` finds no
fully-lowercase token among the first two. -/
def detectRightsholderType (r : List Char) : Option (List Char) :=
  if r.isEmpty then none
  else if orgKeywords.any (fun kw => containsSub kw (lowerStr r)) then
    some ("ЮЛ".data)
  else if containsSub ("индивидуальн".data) (lowerStr r) then
    some ("ФЛ или ИП".data)
  else if containsSub ("\"".data) r then some ("ЮЛ".data)
  else
    let parts := splitSp r
    if parts.length < 4 ∧
        ((parts.take 2).all (fun p => !(lowerStr p == p))) = true then
      some ("ФЛ или ИП".data)
    else some ("ЮЛ".data)

/-- C3 counterexample: "Иванов Иван" passes no keyword, quote or "индивидуальн"
test and has 2 tokens; both of its first two tokens are capitalized (contain
an uppercase letter), yet the code classifies it "ФЛ или ИП" - the claim says
"Individual/Sole-proprietor" requires that neither token be capitalized. -/
theorem c3_counterexample :
    detectRightsholderType ("Иванов Иван".data) = some ("ФЛ или ИП".data) ∧
    ((splitSp ("Иванов Иван".data)).take 2).all
        (fun p => !(lowerStr p == p)) = true := by
  exact ⟨by decide, by decide⟩

/-- C3 (amended): for every rightsholder string matching no organization
keyword, containing no "индивидуальн" keyword and no double quote, with
fewer than 4 space-separated tokens, the type is "ФЛ или ИП" exactly when
each of the first two tokens contains an uppercase letter (Python
`part.lower() == part` fails for both), i.e. both are capitalized - not,
as the claim states, when neither is capitalized; "ЮЛ" otherwise. -/
theorem c3_amended (r : List Char) (h0 : r.isEmpty = false)
    (h1 : orgKeywords.any (fun kw => containsSub kw (lowerStr r)) = false)
    (h2 : containsSub ("индивидуальн".data) (lowerStr r) = false)
    (h3 : containsSub ("\"".data) r = false)
    (h4 : (splitSp r).length < 4) :
    detectRightsholderType r = some ("ФЛ или ИП".data) ↔
      ((splitSp r).take 2).all (fun p => !(lowerStr p == p)) = true := by
  unfold detectRightsholderType
  rw [h0, h1, h2, h3]
  simp only [Bool.false_eq_true, if_false]
  by_cases hb : ((splitSp r).take 2).all (fun p => !(lowerStr p == p)) = true
  · rw [if_pos ⟨h4, hb⟩]
    simp [hb]
  · rw [if_neg (fun hc => hb hc.2)]
    exact ⟨fun hc => absurd (Option.some.inj hc) (by decide),
           fun hc => absurd hc hb⟩

/-- C3 witness: the amended theorem applied at the concrete input
"Иванов Иван". -/
theorem c3_witness :
    detectRightsholderType ("Иванов Иван".data) = some ("ФЛ или ИП".data) ↔
      ((splitSp ("Иванов Иван".data)).take 2).all
          (fun p => !(lowerStr p == p)) = true :=
  c3_amended ("Иванов Иван".data) (by decide) (by decide) (by decide)
    (by decide) (by decide)

/-! ### Tables

Raw tables extracted by tabula are modelled as a header list plus a list of
rows; a cell is `none` for pandas `NaN` and `some s` for a string value.
`str(cell)` renders `NaN` as "nan". -/

/-- One table cell: `none` models pandas `NaN`. -/
abbrev Cell := Option (List Char)

/-- One table row, positionally indexed. -/
abbrev Row := List Cell

/-- A raw tabula table: column headers plus data rows. -/
structure Table where
  headers : List (List Char)
  rows : List Row
deriving DecidableEq, Repr

/-- Python `str(cell)`: `NaN` renders as "nan". -/
def cellStr (c : Cell) : List Char :=
  c.getD ("nan".data)

/-- Python `str(row[0])` of a pandas row (positional first cell). -/
def firstCellStr (r : Row) : List Char :=
  cellStr (r.headD none)

/-- Python `str(row[-1])` of a pandas row (positional last cell). -/
def lastCellStr (r : Row) : List Char :=
  cellStr (r.getLastD none)

/-- First index satisfying a predicate (embeds the Python
`for i, x in enumerate(..)` / `break` pattern). -/
def findIdxQ (p : α → Bool) : List α → Option Nat
  | [] => none
  | a :: as =>
    if p a then some 0 else (findIdxQ p as).map (· + 1)

/-! ### Unregulated-objects table check (C8)

`Parser._check_unregulated_objects_table`, src/parser.py lines 335-352. -/

/-- Loop of `_check_unregulated_objects_table`: scan the rows for the first
one whose first cell starts with "1"; `none` when the enumeration row is
missing or its last cell does not end with "8" (the function's `return
None`); otherwise the `table.shape[0] - i < 3` threshold decides the
answer.  `total` is `table.shape[0]`, `k` the current row index. -/
def checkUnregulatedAux (total : Nat) : Nat → List Row → Option Bool
  | _, [] => none
  | k, r :: rs =>
    if isStartOf ("1".data) (firstCellStr r) then
      if isEndOf ("8".data) (lastCellStr r) then
        if total - k < 3 then some false else some true
      else none
    else checkUnregulatedAux total (k + 1) rs

/-- Embedding of `Parser._check_unregulated_objects_table` (src/parser.py
lines 335-352). -/
def checkUnregulatedTable (t : Table) : Option Bool :=
  checkUnregulatedAux t.rows.length 0 t.rows

theorem checkUnregulatedAux_char (total : Nat) (rows : List Row) :
    ∀ k : Nat,
      checkUnregulatedAux total k rows =
        match findIdxQ (fun r => isStartOf ("1".data) (firstCellStr r)) rows with
        | none => none
        | some j =>
          if isEndOf ("8".data) (lastCellStr (rows.getD j [])) then
            if total - (k + j) < 3 then some false else some true
          else none := by
  induction rows with
  | nil => intro k; rfl
  | cons r rs ih =>
    intro k
    by_cases h : isStartOf ("1".data) (firstCellStr r) = true
    · simp [checkUnregulatedAux, findIdxQ, h]
    · rw [checkUnregulatedAux, if_neg h, ih (k + 1)]
      have hq : findIdxQ (fun r => isStartOf ("1".data) (firstCellStr r))
            (r :: rs)
          = (findIdxQ (fun r => isStartOf ("1".data) (firstCellStr r))
              rs).map (· + 1) := by
        rw [findIdxQ, if_neg h]
      rw [hq]
      cases hf : findIdxQ (fun r => isStartOf ("1".data) (firstCellStr r)) rs with
      | none => rfl
      | some j =>
        simp only [Option.map_some']
        have harr : (r :: rs).getD (j + 1) ([] : Row) = rs.getD j [] :=
          List.getD_cons_succ
        rw [harr]
        have hsub : total - (k + 1 + j) = total - (k + (j + 1)) := by omega
        rw [hsub]

/-- C8 counterexample: a table passing the 8-column enumeration-header
validation with the header at index 0 and exactly 2 rows after it.  The
claim predicts `false` ("fewer than 3 rows follow the header"), but the
code's test is `shape[0] - i < 3`, which counts the header row itself, so
the detector returns `true`. -/
theorem c8_counterexample :
    checkUnregulatedTable
        ⟨["h".data],
         [[some ("1".data), some ("8".data)],
          [some ("a".data)], [some ("b".data)]]⟩ = some true ∧
    ([[some ("1".data), some ("8".data)],
      [some ("a".data)], [some ("b".data)]] : List Row).length = 3 := by
  exact ⟨rfl, rfl⟩

/-- C8 (amended): for every table that passes the 8-column
enumeration-header validation with the header row at index `i`, the detector
returns `false` exactly when `rows - i < 3`, i.e. when fewer than 2 rows
follow the header row (the Python threshold counts the header row itself),
and `true` when 2 or more rows follow it. -/
theorem c8_amended (t : Table) (i : Nat)
    (hf : findIdxQ (fun r => isStartOf ("1".data) (firstCellStr r)) t.rows
            = some i)
    (h8 : isEndOf ("8".data) (lastCellStr (t.rows.getD i [])) = true) :
    (checkUnregulatedTable t = some false ↔ t.rows.length - i < 3) ∧
    (checkUnregulatedTable t = some true ↔ 3 ≤ t.rows.length - i) := by
  unfold checkUnregulatedTable
  rw [checkUnregulatedAux_char t.rows.length t.rows 0, hf]
  simp only [h8, if_true, Nat.zero_add]
  by_cases h : t.rows.length - i < 3
  · rw [if_pos h]
    constructor
    · simp [h]
    · constructor
      · intro hc; exact absurd (Option.some.inj hc) (by decide)
      · intro hc; omega
  · rw [if_neg h]
    constructor
    · constructor
      · intro hc; exact absurd (Option.some.inj hc) (by decide)
      · intro hc; omega
    · simp; omega

/-- C8 witness: the amended theorem applied to a concrete valid table with
the header at index 0 and 3 rows after it. -/
theorem c8_witness :
    (checkUnregulatedTable
        ⟨["h".data],
         [[some ("1".data), some ("8".data)], [some ("a".data)],
          [some ("b".data)], [some ("c".data)]]⟩ = some false ↔
      ([[some ("1".data), some ("8".data)], [some ("a".data)],
        [some ("b".data)], [some ("c".data)]] : List Row).length - 0 < 3) ∧
    (checkUnregulatedTable
        ⟨["h".data],
         [[some ("1".data), some ("8".data)], [some ("a".data)],
          [some ("b".data)], [some ("c".data)]]⟩ = some true ↔
      3 ≤ ([[some ("1".data), some ("8".data)], [some ("a".data)],
        [some ("b".data)], [some ("c".data)]] : List Row).length - 0) :=
  c8_amended
    ⟨["h".data],
     [[some ("1".data), some ("8".data)], [some ("a".data)],
      [some ("b".data)], [some ("c".data)]]⟩ 0 (by decide) (by decide)

/-! ### Unregulated-objects detector (C4)

`Parser._extract_from_unregulated_objects_table`, src/parser.py lines
313-333.  When no table's first header starts with the marker, the local
variable `has_data` is never assigned and the following `if has_data is
None` raises `UnboundLocalError`. -/

/-- Embedding of `Parser._extract_from_unregulated_objects_table`
(src/parser.py lines 313-333).  The result is the value stored in
`has_unregulated_objects`, or the exception the function raises. -/
def extractUnregulated (tables : List Table) : Except PyErr Bool :=
  if tables.length = 0 then .ok false
  else
    match findIdxQ
        (fun tb => isStartOf ("Причины отнесения".data) (tb.headers.getD 0 []))
        tables with
    | none => .error .unboundLocal
    | some i =>
      let hasData := checkUnregulatedTable (tables.getD i ⟨[], []⟩)
      let hasData2 :=
        if hasData = none ∧ i + 1 < tables.length then
          checkUnregulatedTable (tables.getD (i + 1) ⟨[], []⟩)
        else hasData
      .ok (hasData2.getD false)

/-- C4: with a non-empty table list in which no first-column header starts
with "Причины отнесения", the detector raises `UnboundLocalError` instead of
returning `false` (first conjunct, refuting the claim); when the marker
matches but both the matched table and its single fallback fail the
8-column validation, it does return `false` without raising (second
conjunct, the part of the claim the code satisfies). -/
theorem c4_theorem :
    extractUnregulated [⟨["Другое".data], [[some ("x".data)]]⟩] =
      .error .unboundLocal ∧
    extractUnregulated
        [⟨["Причины отнесения объектов".data],
          [[some ("1".data), some ("7".data)]]⟩,
         ⟨["w".data], [[some ("q".data)]]⟩] = .ok false := by
  exact ⟨rfl, rfl⟩

/-! ### Subzone segmentation (C9)

`Parser._get_subzones_from_table` (src/parser.py lines 354-371) and the key
computation of `Parser._extract_data_by_subzones` (lines 373-401).

A marker row has "No" in its first cell and no truthy value in the rest
(pandas `Series.any()` skips `NaN` and applies Python truthiness, so an
empty string is also falsy).  Marker rows receive increasing indices that
are forward-filled onto following rows; rows before the first marker keep
`NaN` and are dropped by `groupby`.  With no marker row at all the whole
table is one implicit group whose dictionary key is "-1"; with markers, each
group's key is `re.search(r"No (\d+)", str(first cell))` - a digit string,
or Python `None` when the regex fails.  The dictionary is only built if no
group raises; keys inserted up to a raise are a prefix of the full key
list, so the invariant is stated on the full list. -/

/-- pandas truthiness of a cell under `Series.any()`: `NaN` is skipped and
an empty string is falsy. -/
def cellTruthy : Cell → Bool
  | none => false
  | some s => !s.isEmpty

/-- A zone-marker row: "No" occurs in `str(row[0])` and `row[1:].any()` is
false (src/parser.py line 360). -/
def isMarkerRow (r : Row) : Bool :=
  containsSub ("No".data) (firstCellStr r) && !((r.drop 1).any cellTruthy)

/-- Forward-fill grouping: each marker row opens a group that collects the
following rows until the next marker; rows before the first marker belong to
the `NaN` group, which `groupby` drops.  State: the currently open group
(marker row, body so far). -/
def markerGroupsAux : List Row → Option (Row × List Row) → List (List Row)
  | [], none => []
  | [], some (m, body) => [m :: body]
  | r :: rs, none =>
    if isMarkerRow r then markerGroupsAux rs (some (r, []))
    else markerGroupsAux rs none
  | r :: rs, some (m, body) =>
    if isMarkerRow r then (m :: body) :: markerGroupsAux rs (some (r, []))
    else markerGroupsAux rs (some (m, body ++ [r]))

/-- The per-subzone row groups produced by marker-row segmentation. -/
def markerGroups (rows : List Row) : List (List Row) :=
  markerGroupsAux rows none

/-- Embedding of `re.search(r"No (\d+)", s)`: the first occurrence of "No "
followed by at least one digit yields the maximal digit run after it. -/
def searchNo : List Char → Option (List Char)
  | [] => none
  | c :: ts =>
    if isStartOf ("No ".data) (c :: ts) ∧ (ts.drop 2).takeWhile Char.isDigit ≠ [] then
      some ((ts.drop 2).takeWhile Char.isDigit)
    else searchNo ts

/-- The dictionary keys that `_extract_data_by_subzones` computes for a
limits table's data rows: with no marker row, the single implicit key "-1"
(`title_cell` is `None`); with markers, one key per group taken from the
group's first cell via the `No (\d+)` regex (`none` models the Python `None`
key produced when the regex fails). -/
def subzoneKeys (rows : List Row) : List (Option (List Char)) :=
  if rows.any isMarkerRow then
    (markerGroups rows).map (fun g => searchNo (firstCellStr (g.headD [])))
  else [some ("-1".data)]

theorem searchNo_digits (s : List Char) :
    ∀ run, searchNo s = some run → run ≠ [] ∧ ∀ c ∈ run, c.isDigit = true := by
  induction s with
  | nil => intro run h; exact absurd h (by simp [searchNo])
  | cons c ts ih =>
    intro run h
    unfold searchNo at h
    by_cases hc : isStartOf ("No ".data) (c :: ts) = true ∧
        (ts.drop 2).takeWhile Char.isDigit ≠ []
    · rw [if_pos hc] at h
      refine ⟨by rw [← Option.some.inj h]; exact hc.2, ?_⟩
      intro d hd
      rw [← Option.some.inj h] at hd
      exact List.mem_takeWhile_imp hd
    · rw [if_neg hc] at h
      exact ih run h

/-- C9: for every (post-slicing) limits table, the subzone key list never
contains the sentinel "-1" together with any other key: if "-1" occurs at
all, the table had no marker rows and the key list is exactly the single
implicit zone.  With marker rows, every key comes from the `No (\d+)` regex
and is a digit string (or Python `None`), never "-1". -/
theorem c9_theorem (rows : List Row)
    (h : some ("-1".data) ∈ subzoneKeys rows) :
    subzoneKeys rows = [some ("-1".data)] := by
  unfold subzoneKeys at h ⊢
  by_cases hm : rows.any isMarkerRow = true
  · rw [if_pos hm] at h
    exfalso
    rcases List.mem_map.mp h with ⟨g, _, hg⟩
    rcases searchNo_digits _ _ hg with ⟨_, hdig⟩
    have : ('-' : Char).isDigit = true := hdig '-' (by simp)
    exact absurd this (by decide)
  · rw [if_neg hm]

/-- C9 witness: a one-row table with no marker row yields exactly the
implicit sentinel key. -/
theorem c9_witness :
    subzoneKeys [[some ("x".data)]] = [some ("-1".data)] :=
  c9_theorem [[some ("x".data)]] (by decide)

/-! ### Span extractor (C6)

`Parser._get_attr_by_position` (src/parser.py lines 243-271), called by
`Parser._extract_from_text` (lines 220-241) with `start=2`.  The `start`
argument only takes part in the initial `all(...)` truthiness check; the
scan loop `for i, line in enumerate(text)` starts at line index 0. -/

/-- Embedding of `Parser._get_attr_by_position` (src/parser.py lines
243-271).  Returns the attribute value (`none` models the Python `None`
result), or `IndexError` when a one-line value's position lies past the end
of the text. -/
def getAttrByPosition (text : List (List Char)) (start : Nat)
    (startHeader stopHeader : List Char) (offset : Nat)
    (len : Option Nat) : Except PyErr (Option (List Char)) :=
  if text.isEmpty || start == 0 || startHeader.isEmpty ||
      stopHeader.isEmpty || offset == 0 then
    .ok none
  else
    match findIdxQ (fun line => isStartOf startHeader line) text with
    | none => .ok none
    | some i =>
      if len = some 1 then
        match text.get? (i + offset) with
        | some v => .ok (some v)
        | none => .error .indexError
      else
        .ok (some (joinWith (" ".data)
          ((text.drop (i + offset)).takeWhile
            (fun line => !(isStartOf stopHeader line)))))

/-- C6 counterexample: a marker occurring only at line index 0 (before the
claimed scan start of 2) is still matched, and the field is non-null - the
claim says that when no line from index 2 onward starts with the marker the
field is null. -/
theorem c6_counterexample :
    getAttrByPosition
        ["Заголовок поля".data, "значение".data, "хвост".data] 2
        ("Заголовок".data) ("Стоп".data) 1 (some 1) =
      .ok (some ("значение".data)) ∧
    ((["Заголовок поля".data, "значение".data, "хвост".data].drop 2).all
        (fun l => !(isStartOf ("Заголовок".data) l))) = true := by
  exact ⟨rfl, rfl⟩

/-- C6 (amended): for every line list and field rule with truthy arguments,
the Span Extractor scans from line index 0 - the `start` argument is only
checked for truthiness and never restricts the scan - for the first line
starting with the rule's start marker; if no line at all starts with the
marker the field is null (no exception), and otherwise the value starts at
the match index plus the rule's offset. -/
theorem c6_amended (text : List (List Char)) (sH spH : List Char)
    (off : Nat) (len : Option Nat)
    (h1 : text.isEmpty = false) (h2 : sH.isEmpty = false)
    (h3 : spH.isEmpty = false) (h4 : off ≠ 0) :
    (∀ s s', s ≠ 0 → s' ≠ 0 →
        getAttrByPosition text s sH spH off len =
          getAttrByPosition text s' sH spH off len) ∧
    (findIdxQ (fun l => isStartOf sH l) text = none →
        getAttrByPosition text 2 sH spH off len = .ok none) ∧
    (∀ i, findIdxQ (fun l => isStartOf sH l) text = some i → len = some 1 →
        getAttrByPosition text 2 sH spH off len =
          match text.get? (i + off) with
          | some v => .ok (some v)
          | none => .error .indexError) := by
  have hguard : ∀ s : Nat, s ≠ 0 →
      (text.isEmpty || s == 0 || sH.isEmpty || spH.isEmpty || off == 0)
        = false := by
    intro s hs
    simp [h1, h2, h3, h4, hs]
  refine ⟨?_, ?_, ?_⟩
  · intro s s' hs hs'
    unfold getAttrByPosition
    rw [hguard s hs, hguard s' hs']
  · intro hnone
    unfold getAttrByPosition
    rw [hguard 2 (by omega), hnone]
    rfl
  · intro i hi hlen
    unfold getAttrByPosition
    rw [hguard 2 (by omega), hi]
    simp [hlen]

/-- C6 witness: the amended theorem applied at a concrete line list shows
the result with `start=5` equals the result with `start=2`. -/
theorem c6_witness :
    getAttrByPosition
        ["Заголовок поля".data, "значение".data, "хвост".data] 5
        ("Заголовок".data) ("Стоп".data) 1 (some 1) =
      getAttrByPosition
        ["Заголовок поля".data, "значение".data, "хвост".data] 2
        ("Заголовок".data) ("Стоп".data) 1 (some 1) :=
  (c6_amended ["Заголовок поля".data, "значение".data, "хвост".data]
      ("Заголовок".data) ("Стоп".data) 1 (some 1)
      (by decide) (by decide) (by decide) (by decide)).1
    5 2 (by decide) (by decide)

/-! ### Expiry date (C7)

`Parser._get_end_date`, src/parser.py lines 926-937.  Python
`datetime.date` is modelled by its proleptic-Gregorian day ordinal;
`toOrdinal y m d` is the standard civil-from-days conversion (days counted
from 0000-03-01), under which `timedelta(days=n)` is `+ n` and date
comparison is `≤`. -/

/-- Day ordinal of the proleptic Gregorian date `y-m-d` (valid dates with
`y ≥ 1`); addition of `n` days is ordinal addition. -/
def toOrdinal (y m d : Nat) : Nat :=
  let y2 := if m ≤ 2 then y - 1 else y
  let era := y2 / 400
  let yoe := y2 % 400
  let mp := (m + 9) % 12
  let doy := (153 * mp + 2) / 5 + d - 1
  let doe := yoe * 365 + yoe / 4 - yoe / 100 + doy
  era * 146097 + doe

/-- The two historical extension windows of `_get_end_date`, bounds
inclusive. -/
def inExtensionWindows (e : Nat) : Prop :=
  (toOrdinal 2020 4 6 ≤ e ∧ e ≤ toOrdinal 2021 1 1) ∨
  (toOrdinal 2022 4 13 ≤ e ∧ e ≤ toOrdinal 2023 1 1)

instance (e : Nat) : Decidable (inExtensionWindows e) := by
  unfold inExtensionWindows
  infer_instance

/-- Embedding of `Parser._get_end_date` (src/parser.py lines 926-937): the
naive expiry is the issuance ordinal plus `3*365` days; when it falls inside
either extension window (the two `if`/`elif` tests, bounds inclusive) a
single further 365 days are added. -/
def getEndDate : Option Nat → Option Nat
  | none => none
  | some d =>
    let e := d + 3 * 365
    if toOrdinal 2020 4 6 ≤ e ∧ e ≤ toOrdinal 2021 1 1 then some (e + 365)
    else if toOrdinal 2022 4 13 ≤ e ∧ e ≤ toOrdinal 2023 1 1 then
      some (e + 365)
    else some e

/-- Modelled from the spec's words only (for comparison with the code): an
expiry of "issuance plus 3 years" for a calendar date keeps month and day
and adds 3 to the year. -/
def specExpiryThreeYears (y m d : Nat) : Nat :=
  toOrdinal (y + 3) m d

/-- C7 counterexample: for issuance 2021-06-01 the code adds 1095 days and
lands on 2024-05-31 (a leap day lies in the span), not on the 2024-06-01
that "issuance plus 3 years" asserts. -/
theorem c7_counterexample :
    getEndDate (some (toOrdinal 2021 6 1)) = some (toOrdinal 2024 5 31) ∧
    getEndDate (some (toOrdinal 2021 6 1)) ≠
      some (specExpiryThreeYears 2021 6 1) := by
  exact ⟨by decide, by decide⟩

/-- C7 (amended): for every issuance date, the expiry equals the issuance
plus 1095 days (3×365, which differs from "plus 3 years" exactly when a
leap day falls in the span), shifted once by 365 further days exactly when
the unshifted expiry falls in [2020-04-06, 2021-01-01] or
[2022-04-13, 2023-01-01], both bounds inclusive; issuance 2020-03-01 yields
expiry 2023-03-01, and an unshifted expiry landing exactly on 2020-04-06 or
on 2021-01-01 is shifted (to 2021-04-06 and 2022-01-01 respectively). -/
theorem c7_amended :
    (∀ d : Nat, getEndDate (some d) =
        some (if inExtensionWindows (d + 3 * 365) then d + 3 * 365 + 365
              else d + 3 * 365)) ∧
    getEndDate (some (toOrdinal 2020 3 1)) = some (toOrdinal 2023 3 1) ∧
    getEndDate (some (toOrdinal 2017 4 7)) = some (toOrdinal 2021 4 6) ∧
    toOrdinal 2017 4 7 + 3 * 365 = toOrdinal 2020 4 6 ∧
    getEndDate (some (toOrdinal 2018 1 2)) = some (toOrdinal 2022 1 1) ∧
    toOrdinal 2018 1 2 + 3 * 365 = toOrdinal 2021 1 1 := by
  refine ⟨?_, by decide, by decide, by decide, by decide, by decide⟩
  intro d
  simp only [getEndDate]
  by_cases h1 : toOrdinal 2020 4 6 ≤ d + 3 * 365 ∧
      d + 3 * 365 ≤ toOrdinal 2021 1 1
  · rw [if_pos h1,
      if_pos (show inExtensionWindows (d + 3 * 365) from Or.inl h1)]
  · rw [if_neg h1]
    by_cases h2 : toOrdinal 2022 4 13 ≤ d + 3 * 365 ∧
        d + 3 * 365 ≤ toOrdinal 2023 1 1
    · rw [if_pos h2,
        if_pos (show inExtensionWindows (d + 3 * 365) from Or.inr h2)]
    · rw [if_neg h2,
        if_neg (show ¬inExtensionWindows (d + 3 * 365) from by
          rintro (h | h)
          exacts [h1 h, h2 h])]

/-! ### Parse pipeline (C5)

`Parser.parse` (src/parser.py lines 147-164) runs, in order:
`_extract_number`, `_set_type`, `_extract_from_text`, `_extract_dates`,
`_extract_from_tables` and `_postprocess`.  Page texts are a dict keyed
1..n, modelled as a list of pages; a failed table extraction leaves
`self._tables = None`, modelled as `none`.  The postprocess step consumes
the raw fields and is modelled by the per-field functions above; the claims
about raising are decided by the earlier stages. -/

/-- Embedding of `Parser._extract_number` (src/parser.py lines 470-479):
`self._text[1]` raises `KeyError` when the page dict is empty; otherwise the
first page-1 line starting with "№" is taken, the glyph removed and the rest
stripped, defaulting to "". -/
def extractNumber (text : List (List Char)) : Except PyErr (List Char) :=
  match text.head? with
  | none => .error .keyError
  | some p1 =>
    let lines := splitOnChar '\n' p1
    match (lines.filter (fun l => isStartOf ("№".data) l)).head? with
    | none => .ok []
    | some l => .ok (pyStrip (l.filter (fun c => !(c == '№'))))

/-- Embedding of `Parser._set_type` (src/parser.py lines 214-218). -/
def setType (number : List Char) : Option (List Char) :=
  if isStartOf ("RU".data) number then some ("RU".data)
  else if isStartOf ("РФ".data) number then some ("РФ".data)
  else none

/-- One entry of the `HEADERS_RU`/`HEADERS_RF` rule tables: start marker,
stop marker, line offset, value length (`none` = read to the stop marker). -/
structure FieldRule where
  startHeader : List Char
  stopHeader : List Char
  offset : Nat
  len : Option Nat
deriving Repr

/-- `Parser.HEADERS_RU` (src/parser.py lines 25-62). -/
def headersRU : List (List Char × FieldRule) :=
  [("rightsholder".data,
    ⟨"Градостроительный план земельного участка подготовлен на основании".data,
     "Местонахождение земельного участка".data, 1, none⟩),
   ("location".data,
    ⟨"Местонахождение земельного участка".data,
     "Описание границ земельного участка:".data, 1, none⟩),
   ("cad_number".data,
    ⟨"Кадастровый номер земельного участка".data,
     "Площадь земельного участка".data, 1, some 1⟩),
   ("area".data,
    ⟨"Площадь земельного участка".data,
     "Информация о расположенных в границах земельного участка объектах капитального строительства".data,
     1, some 1⟩),
   ("ppt_pmt".data,
    ⟨"Реквизиты проекта планировки территории и (или) проекта межевания территории".data,
     "Градостроительный план подготовлен".data, 3, none⟩),
   ("usekinds".data,
    ⟨"основные виды разрешенного использования земельного участка:".data,
     "условно разрешенные виды использования земельного участка:".data,
     1, none⟩),
   ("capital_buildinds_presence".data,
    ⟨"Информация о расположенных в границах земельного участка объектах капитального строительства".data,
     "Информация о границах зоны планируемого размещения объекта капитального строительства".data,
     1, none⟩),
   ("capital_buildings_descr".data,
    ⟨"3.1. Объекты капитального строительства".data,
     "3.2. Объекты, включенные в единый государственный реестр объектов культурного наследия".data,
     1, none⟩),
   ("heritage".data,
    ⟨"3.2. Объекты, включенные в единый государственный реестр объектов культурного наследия".data,
     "4. Информация о расчетных показателях минимально допустимого уровня обеспеченности".data,
     2, none⟩)]

/-- `Parser.HEADERS_RF` (src/parser.py lines 64-101). -/
def headersRF : List (List Char × FieldRule) :=
  [("rightsholder".data,
    ⟨"Градостроительный план земельного участка подготовлен на основании обращения правообладателя".data,
     "Местонахождение земельного участка".data, 3, none⟩),
   ("location".data,
    ⟨"Местонахождение земельного участка".data,
     "Описание границ земельного участка (образуемого земельного участка):".data,
     1, none⟩),
   ("cad_number".data,
    ⟨"Кадастровый номер земельного участка (при наличии) или в случае, предусмотренном".data,
     "Площадь земельного участка".data, 4, some 1⟩),
   ("area".data,
    ⟨"Площадь земельного участка".data,
     "Информация о расположенных в границах земельного участка объектах капитального строительства".data,
     1, some 1⟩),
   ("ppt_pmt".data,
    ⟨"Реквизиты проекта планировки территории и (или) проекта межевания территории".data,
     "Градостроительный план подготовлен".data, 3, none⟩),
   ("usekinds".data,
    ⟨"основные виды разрешенного использования земельного участка:".data,
     "условно разрешенные виды использования земельного участка:".data,
     1, none⟩),
   ("capital_buildinds_presence".data,
    ⟨"Информация о расположенных в границах земельного участка объектах капитального строительства".data,
     "Информация о границах зоны планируемого размещения объекта капитального строительства".data,
     1, none⟩),
   ("capital_buildings_descr".data,
    ⟨"3.1. Объекты капитального строительства".data,
     "3.2. Объекты, включенные в единый государственный реестр объектов культурного наследия".data,
     1, none⟩),
   ("heritage".data,
    ⟨"3.2. Объекты, включенные в единый государственный реестр объектов культурного наследия".data,
     "4. Информация о расчетных показателях минимально допустимого уровня обеспеченности".data,
     2, none⟩)]

/-- Embedding of `Parser._extract_from_text` (src/parser.py lines 220-241):
with no detected dialect the stage returns early setting nothing; otherwise
every rule of the dialect's table is applied to the concatenation of all
pages' lines with `start=2`. -/
def extractFromTextStage (gtype : Option (List Char))
    (text : List (List Char)) :
    Except PyErr (List (List Char × Option (List Char))) :=
  match gtype with
  | none => .ok []
  | some ty =>
    match (if ty = "RU".data then some headersRU
           else if ty = "РФ".data then some headersRF
           else none) with
    | none => .error .unboundLocal
    | some mapping =>
      let lines := (text.map (splitOnChar '\n')).flatten
      mapping.mapM (fun nmRule =>
        (getAttrByPosition lines 2 nmRule.2.startHeader nmRule.2.stopHeader
            nmRule.2.offset nmRule.2.len).map
          (fun v => (nmRule.1, v)))

/-- Numeric value of two digit characters. -/
def twoDigitNat (a b : Char) : Nat :=
  (a.toNat - 48) * 10 + (b.toNat - 48)

/-- First match of `re.search(r"\d{2}\.\d{2}.\d{4}", s)` - note the
unescaped third separator, which matches any character except a newline.
Returns (day digits, month digits, separator, year digits). -/
def findDatePattern : List Char → Option (Nat × Nat × Char × Nat)
  | [] => none
  | a :: ts =>
    match ts with
    | b :: '.' :: c :: d :: sep :: e :: f :: g :: h :: _ =>
      if a.isDigit && b.isDigit && c.isDigit && d.isDigit &&
          !(sep == '\n') && e.isDigit && f.isDigit && g.isDigit && h.isDigit then
        some (twoDigitNat a b, twoDigitNat c d, sep,
          twoDigitNat e f * 100 + twoDigitNat g h)
      else findDatePattern ts
    | _ => findDatePattern ts

/-- Proleptic Gregorian leap year. -/
def isLeap (y : Nat) : Bool :=
  (y % 4 == 0 && y % 100 != 0) || y % 400 == 0

/-- Length of month `m` of year `y`. -/
def monthLen (y m : Nat) : Nat :=
  if m = 2 then (if isLeap y then 29 else 28)
  else if m = 4 ∨ m = 6 ∨ m = 9 ∨ m = 11 then 30 else 31

/-- Python `datetime.datetime.strptime(s, "%d.%m.%Y").date()` on the string
matched by the date regex: the second separator must literally be '.', the
fields must form a valid calendar date with year ≥ 1, otherwise
`ValueError` is raised. -/
def strptimeDMY (dd mm : Nat) (sep : Char) (yyyy : Nat) :
    Except PyErr Nat :=
  if sep = '.' ∧ 1 ≤ mm ∧ mm ≤ 12 ∧ 1 ≤ dd ∧ dd ≤ monthLen yyyy mm ∧
      1 ≤ yyyy then
    .ok (toOrdinal yyyy mm dd)
  else .error .valueError

/-- Embedding of `Parser._extract_date` (src/parser.py lines 898-924): find
the first page containing both marker phrases, then its first line starting
with "Дата выдачи", then the date pattern; any missing step yields `None`;
a matched pattern that `strptime` rejects raises `ValueError`. -/
def extractDateStage (text : List (List Char)) :
    Except PyErr (Option Nat) :=
  match (text.filter (fun p =>
      containsSub ("Дата выдачи ".data) p &&
      containsSub ("Градостроительный план подготовлен".data) p)).head? with
  | none => .ok none
  | some page =>
    match ((splitOnChar '\n' page).filter
        (fun l => isStartOf ("Дата выдачи".data) l)).head? with
    | none => .ok none
    | some dline =>
      match findDatePattern dline with
      | none => .ok none
      | some (dd, mm, sep, yyyy) => (strptimeDMY dd mm sep yyyy).map some

/-- Embedding of `Parser._get_status` (src/parser.py lines 939-954) with the
current date passed explicitly (`datetime.date.today()`). -/
def getStatus (text : List (List Char)) (endDate : Option Nat)
    (today : Nat) : Option (List Char) :=
  if text.length = 1 ∧ text.any (fun p => containsSub ("Первом отделе".data) p) then
    some ("Секретно".data)
  else
    match endDate with
    | none => none
    | some e =>
      if today ≤ e then some ("Действует".data)
      else some ("Срок действия истек".data)

/-- Column indices of a table that `dropna(axis=1, how="all")` keeps: those
with at least one non-`NaN` value. -/
def keepColIdx (t : Table) : List Nat :=
  (List.range t.headers.length).filter
    (fun j => t.rows.any (fun r => (r.getD j none).isSome))

/-- `table.dropna(axis=1, how="all")`. -/
def dropNaCols (t : Table) : Table :=
  ⟨(keepColIdx t).map (fun j => t.headers.getD j []),
   t.rows.map (fun r => (keepColIdx t).map (fun j => r.getD j none))⟩

/-- Scan loop of `_extract_from_limits_table` (src/parser.py lines
287-294): `some (some i)` when row `i` starts with "1" and ends with "8";
`some none` when a row starts with "1" but does not end with "8" (wrong
table); `none` when the loop falls through without a break. -/
def limitScanAux : Nat → List Row → Option (Option Nat)
  | _, [] => none
  | i, r :: rs =>
    if isStartOf ("1".data) (firstCellStr r) &&
        isEndOf ("8".data) (lastCellStr r) then some (some i)
    else if isStartOf ("1".data) (firstCellStr r) &&
        !(isEndOf ("8".data) (lastCellStr r)) then some none
    else limitScanAux (i + 1) rs

/-- Steps of `_extract_from_limits_table` after the enumeration-header row
index `i` is fixed: rename the columns from row `i` (spaces to
underscores), check the first renamed column is a recognized signature,
drop the header row plus the next two rows, and compute the subzone keys of
the rest. -/
def limitsAfterScan (t : Table) (i : Nat) :
    Except PyErr (List (Option (List Char))) :=
  let hr := t.rows.getD i []
  let firstColNew := (hr.headD none).map
    (fun s => s.map (fun c => if c == ' ' then '_' else c))
  if firstColNew = some ("1_2_3".data) ∨ firstColNew = some ("1_2_3_4".data)
  then .ok (subzoneKeys (t.rows.drop (i + 3)))
  else .ok []

/-- Embedding of `Parser._extract_from_limits_table` (src/parser.py lines
277-311), returning the subzone keys (the mapping's keys, in insertion
order).  `len(self._tables)` on an absent (`None`) table list raises
`TypeError`; an empty list yields the empty mapping.  With no table whose
first header starts with the marker, the loop variable holds the last
table.  An empty post-`dropna` row list leaves the loop index unbound and
the subsequent `table.iloc[i, :]` raises `NameError`/`UnboundLocalError`. -/
def extractFromLimits (tables : Option (List Table)) :
    Except PyErr (List (Option (List Char))) :=
  match tables with
  | none => .error .typeError
  | some ts =>
    if ts.length = 0 then .ok []
    else
      let t0 := ((ts.filter (fun tb =>
          isStartOf ("Предельные (минимальные".data)
            (tb.headers.getD 0 []))).headD (ts.getLastD ⟨[], []⟩))
      let t := dropNaCols t0
      if t.rows.isEmpty then .error .unboundLocal
      else
        match limitScanAux 0 t.rows with
        | some none => .ok []
        | some (some i) => limitsAfterScan t i
        | none => limitsAfterScan t (t.rows.length - 1)

/-- Embedding of the guard of
`Parser._extract_from_unregulated_objects_table` over the optional table
list: `len(self._tables)` on `None` raises `TypeError`. -/
def extractUnregulatedStage (tables : Option (List Table)) :
    Except PyErr Bool :=
  match tables with
  | none => .error .typeError
  | some ts => extractUnregulated ts

/-- The raw fields `Parser.parse` accumulates in `self._data` before
postprocessing. -/
structure ParsedRaw where
  number : List Char
  gtype : Option (List Char)
  fields : List (List Char × Option (List Char))
  startDate : Option Nat
  endDate : Option Nat
  status : Option (List Char)
  subzoneKeyList : List (Option (List Char))
  hasUnregulated : Bool
deriving Repr

/-- Embedding of `Parser.parse` (src/parser.py lines 147-164) up to
postprocessing: number, dialect, positional text fields, dates and status,
limits-table subzones and the unregulated-objects flag, in the order the
Python method runs them; the first raised exception aborts the parse. -/
def parsePipeline (text : List (List Char)) (tables : Option (List Table))
    (today : Nat) : Except PyErr ParsedRaw := do
  let number ← extractNumber text
  let gtype := setType number
  let fields ← extractFromTextStage gtype text
  let startDate ← extractDateStage text
  let endDate := getEndDate startDate
  let status := getStatus text endDate today
  let keys ← extractFromLimits tables
  let unreg ← extractUnregulatedStage tables
  .ok ⟨number, gtype, fields, startDate, endDate, status, keys, unreg⟩

/-- C5: a source whose page-text extraction and table extraction both fail
(empty page dict, `self._tables` left `None`) makes `parse()` raise: the
very first stage `_extract_number` evaluates `self._text[1]` and raises
`KeyError` (first conjunct); independently, both table stages raise
`TypeError` at `len(self._tables)` when the table list is absent (second
and third conjuncts).  The claim that the pipeline terminates without
raising with null fields is refuted. -/
theorem c5_theorem :
    parsePipeline [] none 0 = .error .keyError ∧
    extractFromLimits none = .error .typeError ∧
    extractUnregulatedStage none = .error .typeError := by
  exact ⟨rfl, rfl, rfl⟩

end Gpzu
